import Mathlib

/-
Verification of the command layer of an internalblue-style Bluetooth
firmware tool (cmds.py): firmware section addressing, the cached memory
image, write gating, ROM patch installation, the HCI/LMP capture monitor
pipeline, depth-bounded pointer telescoping, and keyword command lookup.

Modelling conventions: byte strings are `List Nat` (each entry a byte
value), device memory is a function `Nat → Nat` from absolute address to
byte, machine arithmetic uses `Nat` with explicit `% 256` / `% 4294967296`
where the code packs fixed-width fields, and effectful calls (hardware
reads/writes, process spawning, user confirmation prompts) become explicit
parameters and effect logs of the translated functions.
-/

/-- A firmware memory section, `{start_addr, end_addr, is_rom, is_ram}`
as used by `internalblue.fw.SECTIONS`. -/
structure Section where
  start_addr : Nat
  end_addr : Nat
  is_rom : Bool
  is_ram : Bool
deriving DecidableEq, Repr

/-- `section.size()`, the derived byte count of a section. -/
def Section.size (s : Section) : Nat := s.end_addr - s.start_addr

/-- Python `s.upper() == t` for an already-uppercase literal `t`, on the
character list so that it evaluates by kernel reduction. -/
def upperEq (s t : String) : Bool := s.data.map Char.toUpper == t.data

/-- `Cmd.isAddressInSections(address, length, sectiontype)` (cmds.py
lines 101-111): walk the section list; skip sections whose kind does not
match `sectiontype` ("ROM"/"RAM", anything else matches every section);
on the first matching section with `start_addr <= address <= end_addr`
return `address + length <= end_addr` immediately; otherwise keep
scanning and return `False` at the end of the list. -/
def isAddressInSections (sections : List Section) (address : Nat)
    (length : Nat) (sectiontype : String) : Bool :=
  match sections with
  | [] => false
  | s :: rest =>
    if (upperEq sectiontype "ROM" && !s.is_rom)
        || (upperEq sectiontype "RAM" && !s.is_ram) then
      isAddressInSections rest address length sectiontype
    else if s.start_addr ≤ address ∧ address ≤ s.end_addr then
      decide (address + length ≤ s.end_addr)
    else
      isAddressInSections rest address length sectiontype

/-- The kind filter of `isAddressInSections`: a section matches the
requested `sectiontype` when it is not skipped by the `continue`. -/
def sectionMatches (sectiontype : String) (s : Section) : Bool :=
  !((upperEq sectiontype "ROM" && !s.is_rom)
    || (upperEq sectiontype "RAM" && !s.is_ram))

/-- Full containment of the half-open range `[address, address+length)`
in the section, `start_addr <= address` and `address+length <= end_addr`. -/
def sectionContains (s : Section) (address length : Nat) : Bool :=
  decide (s.start_addr ≤ address) && decide (address + length ≤ s.end_addr)

/-- Modelled from the spec: "`isAddressInSections(a, l, kind)` is true iff
some section matching `kind` fully contains `[a, a+l)`". This is the
spec-side predicate that claim C2 compares against the source function. -/
def specInSections (sections : List Section) (address length : Nat)
    (sectiontype : String) : Bool :=
  sections.any fun s => sectionMatches sectiontype s && sectionContains s address length

/-- `self.readMem(address, length)`: the external MemoryAccessEngine read,
modelled as returning `length` consecutive bytes of device memory `mem`
starting at `address`. -/
def readMem (mem : Nat → Nat) (address length : Nat) : List Nat :=
  (List.range length).map fun i => mem (address + i)

/-- pwntools `p8`: one byte, little endian. -/
def p8 (n : Nat) : List Nat := [n % 256]

/-- `struct.pack` of one native 32-bit unsigned field (`I`), little endian. -/
def p32 (n : Nat) : List Nat :=
  [n % 256, n / 256 % 256, n / 65536 % 256, n / 16777216 % 256]

/-- pwntools `u32`: decode the first four bytes little endian. -/
def u32 (data : List Nat) : Nat :=
  data.getD 0 0 + data.getD 1 0 * 256 + data.getD 2 0 * 65536
    + data.getD 3 0 * 16777216

/-- One splice of `Cmd.refreshMemoryImage` (cmds.py line 146):
`Cmd.memory_image[0:section.start_addr] + sectiondump + Cmd.memory_image[section.end_addr:]`. -/
def spliceImage (img : List Nat) (s : Section) (dump : List Nat) : List Nat :=
  img.take s.start_addr ++ dump ++ img.drop s.end_addr

/-- One loop iteration of the memory-image dump loops: when `cond`
holds for the section, read the whole section from the device, splice the
dump into the accumulated image and append the read to the log of
`(address, length)` reads issued; otherwise leave the accumulator alone.
`refreshMemoryImage` instantiates `cond` with `!is_rom` (its
`if not section.is_rom` guard) and `initMemoryImage` with `fun _ => true`
(its loop dumps every section). -/
def dumpStep (mem : Nat → Nat) (cond : Section → Bool)
    (acc : List Nat × List (Nat × Nat)) (s : Section) : List Nat × List (Nat × Nat) :=
  if cond s then
    (spliceImage acc.1 s (readMem mem s.start_addr s.size),
      acc.2 ++ [(s.start_addr, s.size)])
  else acc

/-- `Cmd.refreshMemoryImage` (cmds.py lines 139-148): re-read every
non-ROM section and splice it into the cached image at its address range.
Returns the new image together with the log of reads issued. -/
def refreshMemoryImage (mem : Nat → Nat) (sections : List Section)
    (img : List Nat) : List Nat × List (Nat × Nat) :=
  sections.foldl (dumpStep mem (fun s => !s.is_rom)) (img, [])

/-- Total extent of the section map: the largest `end_addr`. This is the
length of the buffer produced by pwntools `fit` for the section dumps. -/
def maxEnd (sections : List Section) : Nat :=
  sections.foldr (fun s m => max s.end_addr m) 0

/-- The template-building branch of `Cmd.initMemoryImage` (cmds.py lines
121-133): dump every section and assemble them at their start addresses
over a zero filler (`fit(dumped_sections, filler='\x00')`), modelled as
splicing each dump into a zero buffer covering all sections. Returns the
image and the log of reads issued. -/
def buildImage (mem : Nat → Nat) (sections : List Section) :
    List Nat × List (Nat × Nat) :=
  sections.foldl (dumpStep mem (fun _ => true))
    (List.replicate (maxEnd sections) 0, [])

/-- The persistent state behind `Cmd.getMemoryImage`: the on-disk template
file `_memdump_template.bin` (if it exists) and the process-lifetime cache
`Cmd.memory_image` (if already built). -/
structure MemCmdState where
  template : Option (List Nat)
  image : Option (List Nat)
deriving DecidableEq, Repr

/-- `Cmd.initMemoryImage` (cmds.py lines 119-137): with no template on
disk, read every section, cache the assembled image and persist it as the
template; with a template present, load it and refresh the non-ROM
sections. Returns the new state and the log of device reads. -/
def initMemoryImage (mem : Nat → Nat) (sections : List Section)
    (st : MemCmdState) : MemCmdState × List (Nat × Nat) :=
  match st.template with
  | none =>
    let r := buildImage mem sections
    (⟨some r.1, some r.1⟩, r.2)
  | some t =>
    let r := refreshMemoryImage mem sections t
    (⟨some t, some r.1⟩, r.2)

/-- `Cmd.getMemoryImage(refresh)` (cmds.py lines 150-155): build the cache
on first use, refresh it when `refresh` is set, and return it. The result
is the returned image, the new state and the log of device reads. -/
def getMemoryImage (refresh : Bool) (mem : Nat → Nat) (sections : List Section)
    (st : MemCmdState) : List Nat × MemCmdState × List (Nat × Nat) :=
  match st.image with
  | none =>
    let r := initMemoryImage mem sections st
    (r.1.image.getD [], r.1, r.2)
  | some img =>
    if refresh then
      let r := refreshMemoryImage mem sections img
      (r.1, ⟨st.template, some r.1⟩, r.2)
    else (img, st, [])

/-- Position `p` lies inside a section selected by `cond` (used to state
which bytes of the image a dump loop overwrites). -/
def inDumpedSection (cond : Section → Bool) (sections : List Section)
    (p : Nat) : Bool :=
  sections.any fun s => cond s && decide (s.start_addr ≤ p) && decide (p < s.end_addr)

/-- `CmdWriteMem.work` (cmds.py lines 729-740), from the point where the
payload bytes are known: if the target range is not inside a RAM section
the user is asked `yesno(...)`; a negative `answer` aborts with `False`
and no hardware interaction, anything else falls through to
`writeMem(address, data, ...)`. Output: the command result and the list of
`(address, data)` writes issued to the controller (`writeOk` models the
success of the underlying chunked write). -/
def cmdWriteMemWork (sections : List Section) (address : Nat) (data : List Nat)
    (answer : Bool) (writeOk : Bool) : Bool × List (Nat × List Nat) :=
  if !isAddressInSections sections address data.length "RAM" && !answer then
    (false, [])
  else (writeOk, [(address, data)])

/-- `CmdWriteAsm.work` (cmds.py lines 786-808), from the point where the
assembler produced `data`: empty machine code aborts; a dry run writes
nothing and succeeds; otherwise the same RAM-section gate and write as
`CmdWriteMem.work`. -/
def cmdWriteAsmWork (sections : List Section) (address : Nat) (data : List Nat)
    (dry : Bool) (answer : Bool) (writeOk : Bool) : Bool × List (Nat × List Nat) :=
  if data.length = 0 then (false, [])
  else if dry then (true, [])
  else if !isAddressInSections sections address data.length "RAM" && !answer then
    (false, [])
  else (writeOk, [(address, data)])

/-- Hardware interactions of `CmdPatch.work`: the calls into
`internalblue.disableRomPatch` and `internalblue.patchRom`. -/
inductive PatchEffect where
  | disableRomPatch (address : Option Nat) (slot : Option Int)
  | patchRom (address : Nat) (value : List Nat) (slot : Option Int)
deriving DecidableEq, Repr

/-- The slot gate of `CmdPatch.work` (cmds.py lines 940-943):
`args.slot < 0 or args.slot > 128` rejects the command. -/
def slotOutOfRange (slot : Option Int) : Bool :=
  match slot with
  | some s => decide (s < 0) || decide (s > 128)
  | none => false

/-- The data-size adjustment of `CmdPatch.work` (cmds.py lines 977-982):
more than 4 bytes are truncated to the first 4, fewer are right-padded
with zero bytes (`ljust(4, "\x00")`); both cases emit a warning (the
returned flag). -/
def adjustPatchData (data : List Nat) : List Nat × Bool :=
  if 4 < data.length then (data.take 4, true)
  else if data.length < 4 then (data ++ List.replicate (4 - data.length) 0, true)
  else (data, false)

/-- `CmdPatch.work` (cmds.py lines 935-989), from the point where the
payload bytes are known: slot range gate, deletion branch
(`disableRomPatch`), address/data presence checks, 4-byte adjustment,
ROM-section gate with user confirmation `answer`, then
`patchRom(address, data, slot)`. Output: command result and the hardware
effects issued (`hwOk` models the success of the underlying call). -/
def cmdPatchWork (sections : List Section) (slot : Option Int) (delete : Bool)
    (address : Option Nat) (data : List Nat) (answer : Bool) (hwOk : Bool) :
    Bool × List PatchEffect :=
  if slotOutOfRange slot then (false, [])
  else if delete then
    if slot.isNone && address.isNone then (false, [])
    else (hwOk, [PatchEffect.disableRomPatch address slot])
  else
    match address with
    | none => (false, [])
    | some addr =>
      if data.isEmpty then (false, [])
      else
        let d := (adjustPatchData data).1
        if !isAddressInSections sections addr d.length "ROM" && !answer then
          (false, [])
        else (hwOk, [PatchEffect.patchRom addr d slot])

/-- State of one `CmdMonitor.MonitorController.__MonitorController`
instance: `running`, the viewer (`wireshark_process`: `none` when absent,
`some none` while alive, `some (some c)` after exiting with status `c`),
whether the capture callback is registered with the engine, and the pcap
data link type chosen for the kind. -/
structure MonState where
  running : Bool
  wiresharkProcess : Option (Option Int)
  callbackRegistered : Bool
  pcapDataLinkType : Nat
deriving DecidableEq, Repr

/-- `__MonitorController.__init__(internalblue, pcap_data_link_type)`. -/
def freshMonState (pcapDataLinkType : Nat) : MonState :=
  { running := false, wiresharkProcess := none, callbackRegistered := false,
    pcapDataLinkType := pcapDataLinkType }

/-- The class-level singleton fields `MonitorController.hciInstance` and
`MonitorController.lmpInstance`. -/
structure MonitorRegistry where
  hciInstance : Option MonState
  lmpInstance : Option MonState
deriving DecidableEq, Repr

/-- `MonitorController.getMonitorController(name, internalblue)` (cmds.py
lines 237-257): lazily create the per-kind singleton (data link type 0xC9
for hci, 0x01 for lmp) and hand back the shared instance; unknown names
yield `None`. -/
def getMonitorController (name : String) (r : MonitorRegistry) :
    Option MonState × MonitorRegistry :=
  if name == "hci" then
    match r.hciInstance with
    | none =>
      let inst := freshMonState 0xC9
      (some inst, { r with hciInstance := some inst })
    | some inst => (some inst, r)
  else if name == "lmp" then
    match r.lmpInstance with
    | none =>
      let inst := freshMonState 0x01
      (some inst, { r with lmpInstance := some inst })
    | some inst => (some inst, r)
  else (none, r)

/-- `_spawnWireshark` effect on the controller state: a live viewer
process appears (the global pcap header write and poll timer start are
outside the state). -/
def spawnWireshark (st : MonState) : MonState :=
  { st with wiresharkProcess := some none }

/-- `startHciMonitor` (cmds.py lines 308-319): refuse with a warning when
already running; otherwise mark running, spawn the viewer if absent and
register the HCI callback. -/
def startHciMonitor (st : MonState) : Bool × List String × MonState :=
  if st.running then (false, ["HCI Monitor already running!"], st)
  else
    let st1 := { st with running := true }
    let st2 := if st1.wiresharkProcess.isNone then spawnWireshark st1 else st1
    (true, [], { st2 with callbackRegistered := true })

/-- `stopHciMonitor` (cmds.py lines 321-328). -/
def stopHciMonitor (st : MonState) : Bool × List String × MonState :=
  if !st.running then (false, ["HCI Monitor is not running!"], st)
  else (true, [], { st with callbackRegistered := false, running := false })

/-- `startLmpMonitor` (cmds.py lines 330-341), same shape as the HCI
variant with the LMP hook installation as callback registration. -/
def startLmpMonitor (st : MonState) : Bool × List String × MonState :=
  if st.running then (false, ["LMP Monitor already running!"], st)
  else
    let st1 := { st with running := true }
    let st2 := if st1.wiresharkProcess.isNone then spawnWireshark st1 else st1
    (true, [], { st2 with callbackRegistered := true })

/-- `stopLmpMonitor` (cmds.py lines 343-350). -/
def stopLmpMonitor (st : MonState) : Bool × List String × MonState :=
  if !st.running then (false, ["LMP Monitor is not running!"], st)
  else (true, [], { st with callbackRegistered := false, running := false })

/-- `_pollTimer` (cmds.py lines 296-306): when the monitor is running and
a viewer process exists, `poll() == 0` (the process exited with status 0)
triggers `stopMonitor()` and drops the process handle; any other poll
result schedules a new timer. The second component records whether a new
timer was scheduled. `stop` is the kind-specific `stopMonitor` the
instance was wired with. -/
def pollTimerStep (stop : MonState → Bool × List String × MonState)
    (st : MonState) : MonState × Bool :=
  match st.wiresharkProcess with
  | none => (st, false)
  | some procState =>
    if st.running then
      if procState = some 0 then
        ({ (stop st).2.2 with wiresharkProcess := none }, false)
      else (st, true)
    else (st, false)

/-- The framed payload built by `hciCallback` (cmds.py lines 374-377):
three dummy bytes, the direction flag `flags & 0x01`, then the raw HCI
packet bytes. -/
def hciPacket (flags : Nat) (raw : List Nat) : List Nat :=
  [0, 0, 0] ++ p8 (flags &&& 1) ++ raw

/-- `hciCallback` (cmds.py lines 371-387): the pcap record written to the
viewer, `struct.pack('@ I I I I', ts_sec, ts_usec, length, length)`
followed by the framed payload, where `length = len(packet)`. -/
def hciCallback (flags : Nat) (raw : List Nat) (tsSec tsUsec : Nat) : List Nat :=
  let packet := hciPacket flags raw
  p32 tsSec ++ p32 tsUsec ++ p32 packet.length ++ p32 packet.length ++ packet

/-- The framed payload built by `lmpCallback` (cmds.py lines 390-395):
synthetic link-layer header `dest + src + "\xff\xf0"`, the direction meta
bytes, the meta header `"\x19\x00\x00"` plus the length/opcode byte
`p8(len(lmp_packet) << 3 | 7)`, the raw LMP payload and a two-byte CRC
placeholder. -/
def lmpPacket (lmp : List Nat) (sendByOwnDevice : Bool) (src dest : List Nat) :
    List Nat :=
  dest ++ src ++ [0xff, 0xf0]
    ++ (if sendByOwnDevice then [0, 0, 0, 0, 0, 0] else [1, 0, 0, 0, 0, 0])
    ++ ([0x19, 0, 0] ++ p8 (lmp.length <<< 3 ||| 7))
    ++ lmp ++ [0, 0]

/-- `lmpCallback` (cmds.py lines 389-406): pcap record header followed by
the framed LMP payload, where both length fields are `len(packet)`. -/
def lmpCallback (lmp : List Nat) (sendByOwnDevice : Bool) (src dest : List Nat)
    (tsSec tsUsec : Nat) : List Nat :=
  let packet := lmpPacket lmp sendByOwnDevice src dest
  p32 tsSec ++ p32 tsUsec ++ p32 packet.length ++ p32 packet.length ++ packet

/-- pwnlib `isprint` on a byte: printable ASCII. -/
def isprint (c : Nat) : Bool := decide (32 ≤ c) && decide (c ≤ 126)

/-- The string-collecting loop at the end of `CmdTelescope.telescope`
(cmds.py lines 627-632): the longest printable prefix of the dump. -/
def takePrintable (data : List Nat) : List Nat := data.takeWhile isprint

/-- `CmdTelescope.telescope(data, depth)` (cmds.py lines 617-633): decode
the first four bytes as a little-endian pointer; stop on a zero value, on
exhausted depth, or on a value outside every section; otherwise read 0x20
bytes at the pointer and recurse with `depth - 1`, prepending the value to
the chain. Result: the pointer chain and the final printable-prefix
string (as bytes). -/
def telescope (sections : List Section) (mem : Nat → Nat) (data : List Nat)
    (depth : Nat) : List Nat × List Nat :=
  let val := u32 data
  if val = 0 then ([val], [])
  else
    match depth with
    | 0 => ([val], takePrintable data)
    | d + 1 =>
      if isAddressInSections sections val 0x20 "" then
        let r := telescope sections mem (readMem mem val 0x20) d
        (val :: r.1, r.2)
      else ([val], takePrintable data)

/-- Big-step call relation of `CmdTelescope.telescope`, one constructor
per exit path of the source: zero pointer value, a leaf (depth exhausted
or pointer outside every section), and one recursive link that consumes
exactly one unit of the depth counter. Totality of this relation is
termination of the recursion. -/
inductive TelescopeStep (sections : List Section) (mem : Nat → Nat) :
    List Nat → Nat → List Nat × List Nat → Prop where
  | zeroVal (data : List Nat) (depth : Nat) (h : u32 data = 0) :
      TelescopeStep sections mem data depth ([u32 data], [])
  | leaf (data : List Nat) (depth : Nat) (h : u32 data ≠ 0)
      (hstop : depth = 0 ∨ isAddressInSections sections (u32 data) 0x20 "" = false) :
      TelescopeStep sections mem data depth ([u32 data], takePrintable data)
  | link (data : List Nat) (d : Nat) (r : List Nat × List Nat) (h : u32 data ≠ 0)
      (hin : isAddressInSections sections (u32 data) 0x20 "" = true)
      (hrec : TelescopeStep sections mem (readMem mem (u32 data) 0x20) d r) :
      TelescopeStep sections mem data (d + 1) (u32 data :: r.1, r.2)

/-- A command class as far as `findCmd` is concerned: its `keywords`
member. -/
structure CmdClass where
  keywords : List String
deriving DecidableEq, Repr

/-- `findCmd(keyword)` (cmds.py lines 46-56) over an explicit command
list: collect the commands whose `keywords` contain the keyword; zero
matches yield `None`, more than one yields a warning and `None`, exactly
one is returned. -/
def findCmd (commandList : List CmdClass) (keyword : String) : Option CmdClass :=
  match commandList.filter (fun cmd => cmd.keywords.contains keyword) with
  | [] => none
  | [cmd] => some cmd
  | _ => none

/-- Separation hypothesis for the amended claim C2: the closed address
ranges `[start_addr, end_addr]` of any two sections matching the
requested kind are disjoint (no two matching sections touch). -/
def sectionsSeparated (sectiontype : String) (sections : List Section) : Prop :=
  List.Pairwise (fun s t => sectionMatches sectiontype s = true →
    sectionMatches sectiontype t = true →
    s.end_addr < t.start_addr ∨ t.end_addr < s.start_addr) sections

/-- Statement of claim C5: behavior of `getMemoryImage` on a first call
(no cache, no template) and on a refreshing call over a cached image
`img`: state transitions, read logs, and the byte-level content of the
resulting images. -/
def MemoryImageClaim (mem : Nat → Nat) (sections : List Section) (img : List Nat)
    (tpl : Option (List Nat)) (refresh0 : Bool) : Prop :=
  ((getMemoryImage refresh0 mem sections ⟨none, none⟩).2.1
      = ⟨some (getMemoryImage refresh0 mem sections ⟨none, none⟩).1,
          some (getMemoryImage refresh0 mem sections ⟨none, none⟩).1⟩ ∧
    (getMemoryImage refresh0 mem sections ⟨none, none⟩).2.2
      = sections.map (fun s => (s.start_addr, s.size)) ∧
    ∀ p, (getMemoryImage refresh0 mem sections ⟨none, none⟩).1.getD p 0
      = if inDumpedSection (fun _ => true) sections p then mem p else 0) ∧
  ((getMemoryImage true mem sections ⟨tpl, some img⟩).2.1
      = ⟨tpl, some (getMemoryImage true mem sections ⟨tpl, some img⟩).1⟩ ∧
    (getMemoryImage true mem sections ⟨tpl, some img⟩).1.length = img.length ∧
    (getMemoryImage true mem sections ⟨tpl, some img⟩).2.2
      = (sections.filter (fun s => s.is_ram)).map (fun s => (s.start_addr, s.size)) ∧
    ∀ p, (getMemoryImage true mem sections ⟨tpl, some img⟩).1.getD p 0
      = if inDumpedSection (fun s => s.is_ram) sections p then mem p
        else img.getD p 0)

/-- Statement of claim C8: each pcap record built by `hciCallback` and
`lmpCallback` is the 16-byte record header followed by the kind-specific
framed payload, and both 32-bit length fields (bytes 8-11 and 12-15)
decode to the framed payload's exact byte length. -/
def CaptureRecordClaim (flags : Nat) (raw : List Nat) (tsSec tsUsec : Nat)
    (lmp : List Nat) (own : Bool) (src dest : List Nat)
    (ts2Sec ts2Usec : Nat) : Prop :=
  (hciCallback flags raw tsSec tsUsec).length = 16 + (hciPacket flags raw).length ∧
  (hciCallback flags raw tsSec tsUsec).drop 16 = hciPacket flags raw ∧
  u32 (((hciCallback flags raw tsSec tsUsec).drop 8).take 4)
    = (hciPacket flags raw).length ∧
  u32 (((hciCallback flags raw tsSec tsUsec).drop 12).take 4)
    = (hciPacket flags raw).length ∧
  (lmpCallback lmp own src dest ts2Sec ts2Usec).length
    = 16 + (lmpPacket lmp own src dest).length ∧
  (lmpCallback lmp own src dest ts2Sec ts2Usec).drop 16 = lmpPacket lmp own src dest ∧
  u32 (((lmpCallback lmp own src dest ts2Sec ts2Usec).drop 8).take 4)
    = (lmpPacket lmp own src dest).length ∧
  u32 (((lmpCallback lmp own src dest ts2Sec ts2Usec).drop 12).take 4)
    = (lmpPacket lmp own src dest).length

/-- Decoding the four packed little-endian bytes of a 32-bit field recovers the value mod 2^32. -/
theorem u32_p32 (n : Nat) : u32 (p32 n) = n % 4294967296 := by
  simp [u32, p32, List.getD]
  omega

/-- A modelled device read returns exactly the requested number of bytes. -/
theorem readMem_length (mem : Nat → Nat) (a n : Nat) : (readMem mem a n).length = n := by
  simp [readMem]

/-- Byte `i` of a device read at `a` is the device byte at `a + i`. -/
theorem readMem_getD (mem : Nat → Nat) (a n i : Nat) (h : i < n) :
    (readMem mem a n).getD i 0 = mem (a + i) := by
  simp [readMem, List.getD_eq_getElem?_getD, List.getElem?_map, List.getElem?_range, h]

/-- Splicing a full-size section dump into an image preserves its length. -/
theorem spliceImage_length (img : List Nat) (s : Section) (dump : List Nat)
    (h1 : s.start_addr ≤ s.end_addr) (h2 : s.end_addr ≤ img.length)
    (hd : dump.length = s.size) : (spliceImage img s dump).length = img.length := by
  simp [spliceImage, List.length_append, List.length_take, List.length_drop, Section.size] at *
  omega

/-- Byte-level effect of one splice: positions inside `[start_addr, end_addr)` come from the dump, everything else is unchanged. -/
theorem spliceImage_getD (img : List Nat) (s : Section) (dump : List Nat)
    (h1 : s.start_addr ≤ s.end_addr) (h2 : s.end_addr ≤ img.length)
    (hd : dump.length = s.size) (p : Nat) :
    (spliceImage img s dump).getD p 0 =
      if s.start_addr ≤ p ∧ p < s.end_addr then dump.getD (p - s.start_addr) 0
      else img.getD p 0 := by
  have hA : (img.take s.start_addr).length = s.start_addr := by
    simp [List.length_take]; omega
  simp only [spliceImage, List.getD_eq_getElem?_getD, List.getElem?_append,
    List.length_append, hA, List.getElem?_take, List.getElem?_drop]
  unfold Section.size at hd
  split_ifs with h01 h02 h03 h04 h05 <;> try (first | rfl | omega)
  have hidx : s.end_addr + (p - (s.start_addr + dump.length)) = p := by omega
  rw [hidx]

/-- Every position of a zero-filled buffer (and beyond it) reads zero. -/
theorem replicate_getD (n p : Nat) : (List.replicate n (0 : Nat)).getD p 0 = 0 := by
  rcases Nat.lt_or_ge p n with h | h
  · simp [List.getD_eq_getElem?_getD, List.getElem?_replicate, h]
  · simp [List.getD_eq_getElem?_getD, List.getElem?_replicate, Nat.not_lt.mpr h]

/-- Every section ends within the total extent of the section map. -/
theorem le_maxEnd (sections : List Section) (s : Section) (hs : s ∈ sections) :
    s.end_addr ≤ maxEnd sections := by
  induction sections with
  | nil => cases hs
  | cons t rest ih =>
    have hm : maxEnd (t :: rest) = max t.end_addr (maxEnd rest) := rfl
    rcases List.mem_cons.mp hs with rfl | hs
    · rw [hm]
      exact Nat.le_max_left _ _
    · rw [hm]
      exact Nat.le_trans (ih hs) (Nat.le_max_right _ _)

/-- Effect of a dump loop over the section list: the image length is preserved, the read log lists exactly the sections selected by `cond` in order, and a position reads the fresh device byte iff it lies in a selected section. -/
theorem dumpFold_spec (mem : Nat → Nat) (cond : Section → Bool) :
    ∀ (sections : List Section) (img : List Nat) (log : List (Nat × Nat)),
    (∀ s ∈ sections, s.start_addr ≤ s.end_addr) →
    (∀ s ∈ sections, s.end_addr ≤ img.length) →
    (sections.foldl (dumpStep mem cond) (img, log)).1.length = img.length ∧
    (sections.foldl (dumpStep mem cond) (img, log)).2 =
      log ++ (sections.filter cond).map (fun s => (s.start_addr, s.size)) ∧
    ∀ p, (sections.foldl (dumpStep mem cond) (img, log)).1.getD p 0 =
      if inDumpedSection cond sections p then mem p else img.getD p 0 := by
  intro sections
  induction sections with
  | nil =>
    intro img log _ _
    refine ⟨rfl, by simp, ?_⟩
    intro p
    simp [inDumpedSection]
  | cons s rest ih =>
    intro img log hse hlen
    have hs1 : s.start_addr ≤ s.end_addr := hse s (List.mem_cons_self s rest)
    have hs2 : s.end_addr ≤ img.length := hlen s (List.mem_cons_self s rest)
    cases hc : cond s with
    | false =>
      have hstep : dumpStep mem cond (img, log) s = (img, log) := by
        simp [dumpStep, hc]
      rw [List.foldl_cons, hstep]
      obtain ⟨L, Log, G⟩ := ih img log (fun t ht => hse t (List.mem_cons_of_mem s ht))
        (fun t ht => hlen t (List.mem_cons_of_mem s ht))
      refine ⟨L, ?_, ?_⟩
      · rw [Log]
        simp [List.filter_cons, hc]
      · intro p
        rw [G p]
        simp [inDumpedSection, hc]
    | true =>
      have hdl : (readMem mem s.start_addr s.size).length = s.size :=
        readMem_length mem _ _
      have hstep : dumpStep mem cond (img, log) s =
          (spliceImage img s (readMem mem s.start_addr s.size),
            log ++ [(s.start_addr, s.size)]) := by
        simp [dumpStep, hc]
      have hl1 : (spliceImage img s (readMem mem s.start_addr s.size)).length = img.length :=
        spliceImage_length img s _ hs1 hs2 hdl
      rw [List.foldl_cons, hstep]
      obtain ⟨L, Log, G⟩ := ih (spliceImage img s (readMem mem s.start_addr s.size))
        (log ++ [(s.start_addr, s.size)])
        (fun t ht => hse t (List.mem_cons_of_mem s ht))
        (fun t ht => by rw [hl1]; exact hlen t (List.mem_cons_of_mem s ht))
      refine ⟨by rw [L, hl1], ?_, ?_⟩
      · rw [Log, List.filter_cons, hc]
        simp
      · intro p
        rw [G p]
        have hsp := spliceImage_getD img s (readMem mem s.start_addr s.size) hs1 hs2 hdl p
        have hcons : inDumpedSection cond (s :: rest) p =
            ((decide (s.start_addr ≤ p) && decide (p < s.end_addr))
              || inDumpedSection cond rest p) := by
          simp [inDumpedSection, List.any_cons, hc]
        rw [hcons]
        by_cases hr : inDumpedSection cond rest p
        · rw [if_pos hr, if_pos (by simp [hr])]
        · have hrb : inDumpedSection cond rest p = false := by
            simpa using hr
          rw [if_neg hr, hsp]
          simp only [hrb, Bool.or_false]
          by_cases hin : s.start_addr ≤ p ∧ p < s.end_addr
          · rw [if_pos hin, if_pos (by simp [hin.1, hin.2])]
            rw [readMem_getD mem s.start_addr s.size (p - s.start_addr)
              (by unfold Section.size; omega)]
            congr 1
            omega
          · rw [if_neg hin, if_neg (by
              intro hcontra
              simp only [Bool.and_eq_true, decide_eq_true_eq] at hcontra
              exact hin ⟨hcontra.1, hcontra.2⟩)]

/-- C2 (amended): `isAddressInSections(a, l, kind)` is true iff some
section matching `kind` fully contains `[a, a+l)`, provided the closed
ranges `[start_addr, end_addr]` of the matching sections are pairwise
disjoint. Pairwise non-overlap of the half-open sections is not enough:
the scan checks `address <= end_addr` inclusively and returns early, so at
a boundary shared by two abutting sections the function answers false even
though the later section contains the range (see the counterexample). -/
theorem isAddressInSections_eq_spec (sections : List Section) (a l : Nat)
    (kind : String) (hsep : sectionsSeparated kind sections) :
    isAddressInSections sections a l kind = specInSections sections a l kind := by
  induction sections with
  | nil => rfl
  | cons s rest ih =>
    obtain ⟨hhead, htail⟩ := List.pairwise_cons.mp hsep
    have ihr := ih htail
    have hXdef : ((upperEq kind "ROM" && !s.is_rom)
        || (upperEq kind "RAM" && !s.is_ram)) = !(sectionMatches kind s) := by
      simp [sectionMatches]
    simp only [isAddressInSections, specInSections, List.any_cons]
    cases hm : sectionMatches kind s with
    | false =>
      have hskip : ((upperEq kind "ROM" && !s.is_rom)
          || (upperEq kind "RAM" && !s.is_ram)) = true := by
        rw [hXdef, hm]
        rfl
      rw [hskip]
      simp only [if_true]
      rw [ihr]
      simp [specInSections, hm]
    | true =>
      have hskip : ((upperEq kind "ROM" && !s.is_rom)
          || (upperEq kind "RAM" && !s.is_ram)) = false := by
        rw [hXdef, hm]
        rfl
      rw [hskip]
      simp only [Bool.false_eq_true, if_false]
      by_cases hpos : s.start_addr ≤ a ∧ a ≤ s.end_addr
      · rw [if_pos hpos]
        by_cases hfit : a + l ≤ s.end_addr
        · have hcont : sectionContains s a l = true := by
            simp [sectionContains, hpos.1, hfit]
          simp [hcont, hfit, hm]
        · have hcont : sectionContains s a l = false := by
            simp only [sectionContains, Bool.and_eq_false_iff, decide_eq_false_iff_not]
            right
            exact hfit
          have hrest : rest.any (fun t => sectionMatches kind t && sectionContains t a l) = false := by
            rw [List.any_eq_false]
            intro t ht
            simp only [Bool.and_eq_true, not_and]
            intro hmt hct
            have hd := hhead t ht hm hmt
            simp only [sectionContains, Bool.and_eq_true, decide_eq_true_eq] at hct
            omega
          simp [hcont, hrest, hfit, hm]
      · rw [if_neg hpos]
        have hcont : sectionContains s a l = false := by
          simp only [sectionContains, Bool.and_eq_false_iff, decide_eq_false_iff_not]
          by_cases h1 : s.start_addr ≤ a
          · right
            intro h2
            exact hpos ⟨h1, by omega⟩
          · left
            exact h1
        rw [ihr]
        simp [specInSections, hcont]

/-- Section membership under a dump condition only depends on the condition's values on the list. -/
theorem inDumpedSection_congr (cond cond' : Section → Bool) (sections : List Section)
    (h : ∀ s ∈ sections, cond s = cond' s) (p : Nat) :
    inDumpedSection cond sections p = inDumpedSection cond' sections p := by
  unfold inDumpedSection
  induction sections with
  | nil => rfl
  | cons s rest ih =>
    simp only [List.any_cons]
    rw [h s (List.mem_cons_self s rest), ih (fun t ht => h t (List.mem_cons_of_mem s ht))]

/-- C5 (confirmed): on first use (no cache, no template) `getMemoryImage`
reads every section exactly once (the read log has one `(start, size)`
entry per section, in order), caches the assembled image and persists it
as the template, with every position inside a section holding the freshly
read device byte. A later call with `refresh` set on a cached image
re-reads exactly the RAM sections and splices each dump at its
`[start_addr, end_addr)` range: positions inside a RAM section become the
fresh device bytes while every other byte of the cached image (in
particular all ROM content) and the image's length are unchanged, and the
template is untouched. Hypotheses: each section has `start_addr <=
end_addr` and ends within the cached image, and sections are tagged RAM
exactly when they are not ROM. -/
theorem getMemoryImage_build_and_refresh (mem : Nat → Nat) (sections : List Section)
    (img : List Nat) (tpl : Option (List Nat)) (refresh0 : Bool)
    (hse : ∀ s ∈ sections, s.start_addr ≤ s.end_addr)
    (hlen : ∀ s ∈ sections, s.end_addr ≤ img.length)
    (hkind : ∀ s ∈ sections, s.is_ram = !s.is_rom) :
    MemoryImageClaim mem sections img tpl refresh0 := by
  have hred : getMemoryImage refresh0 mem sections ⟨none, none⟩
      = ((buildImage mem sections).1,
          ⟨some (buildImage mem sections).1, some (buildImage mem sections).1⟩,
          (buildImage mem sections).2) := by
    simp [getMemoryImage, initMemoryImage]
  have hred2 : getMemoryImage true mem sections ⟨tpl, some img⟩
      = ((refreshMemoryImage mem sections img).1,
          ⟨tpl, some (refreshMemoryImage mem sections img).1⟩,
          (refreshMemoryImage mem sections img).2) := by
    simp [getMemoryImage]
  obtain ⟨L1, Log1, G1⟩ := dumpFold_spec mem (fun _ => true) sections
    (List.replicate (maxEnd sections) 0) [] hse
    (fun s hs => by rw [List.length_replicate]; exact le_maxEnd sections s hs)
  obtain ⟨L2, Log2, G2⟩ := dumpFold_spec mem (fun s => !s.is_rom) sections img [] hse hlen
  unfold MemoryImageClaim
  refine ⟨⟨?_, ?_, ?_⟩, ⟨?_, ?_, ?_, ?_⟩⟩
  · rw [hred]
  · rw [hred]
    show (buildImage mem sections).2 = _
    unfold buildImage
    rw [Log1]
    simp [List.filter_true]
  · intro p
    rw [hred]
    show (buildImage mem sections).1.getD p 0 = _
    unfold buildImage
    rw [G1 p, replicate_getD]
  · rw [hred2]
  · rw [hred2]
    show (refreshMemoryImage mem sections img).1.length = img.length
    unfold refreshMemoryImage
    exact L2
  · rw [hred2]
    show (refreshMemoryImage mem sections img).2 = _
    unfold refreshMemoryImage
    rw [Log2]
    have : sections.filter (fun s => !s.is_rom) = sections.filter (fun s => s.is_ram) :=
      List.filter_congr (fun s hs => (hkind s hs).symm)
    rw [this]
    simp
  · intro p
    rw [hred2]
    show (refreshMemoryImage mem sections img).1.getD p 0 = _
    unfold refreshMemoryImage
    rw [G2 p, inDumpedSection_congr (fun s => !s.is_rom) (fun s => s.is_ram) sections
      (fun s hs => (hkind s hs).symm) p]

/-- C1 (amended): a write request whose target range is not fully
contained in a single RAM section is rejected before any hardware
interaction only when the user declines the confirmation prompt: the
command returns failure and issues no write. When the user confirms, the
write proceeds to the controller anyway. The same gate governs
`CmdWriteAsm.work` (non-dry run with nonempty machine code). -/
theorem writeMem_outside_ram_prompt_gate (sections : List Section) (address : Nat)
    (data : List Nat) (writeOk : Bool)
    (h : isAddressInSections sections address data.length "RAM" = false)
    (hne : data ≠ []) :
    cmdWriteMemWork sections address data false writeOk = (false, []) ∧
    cmdWriteAsmWork sections address data false false writeOk = (false, []) ∧
    cmdWriteMemWork sections address data true writeOk = (writeOk, [(address, data)]) ∧
    cmdWriteAsmWork sections address data false true writeOk = (writeOk, [(address, data)]) := by
  have hlen : data.length ≠ 0 := by simpa using hne
  refine ⟨?_, ?_, ?_, ?_⟩ <;> simp [cmdWriteMemWork, cmdWriteAsmWork, h, hlen]

/-- C1 (counterexample): address 0x100 with one data byte is outside the
single RAM section, but with the confirmation prompt answered yes
`CmdWriteMem.work` writes the data to the controller and reports success,
contradicting the claim that such requests are rejected with no data
written. -/
theorem writeMem_outside_ram_confirmed_writes :
    isAddressInSections [⟨0x200000, 0x248000, false, true⟩] 0x100 1 "RAM" = false ∧
    cmdWriteMemWork [⟨0x200000, 0x248000, false, true⟩] 0x100 [0xAA] true true
      = (true, [(0x100, [0xAA])]) := by
  exact ⟨rfl, rfl⟩

/-- C1 witness: the amended gate theorem at a concrete section map, address and payload. -/
theorem writeMem_outside_ram_prompt_gate_witness :
    cmdWriteMemWork [⟨0x200000, 0x248000, false, true⟩] 0x100 [0xAA] false true = (false, []) ∧
    cmdWriteAsmWork [⟨0x200000, 0x248000, false, true⟩] 0x100 [0xAA] false false true = (false, []) ∧
    cmdWriteMemWork [⟨0x200000, 0x248000, false, true⟩] 0x100 [0xAA] true true
      = (true, [(0x100, [0xAA])]) ∧
    cmdWriteAsmWork [⟨0x200000, 0x248000, false, true⟩] 0x100 [0xAA] false true true
      = (true, [(0x100, [0xAA])]) :=
  writeMem_outside_ram_prompt_gate [⟨0x200000, 0x248000, false, true⟩] 0x100 [0xAA] true
    (by decide) (by decide)

/-- C2 (counterexample): with the pairwise non-overlapping half-open
sections ROM `[0, 0x90000)` and RAM `[0x90000, 0xA0000)` (the spec's own
scenario map), the range `[0x90000, 0x90008)` is fully contained in the
RAM section and the spec-side predicate says true, yet
`isAddressInSections` answers false: the scan stops at the ROM section
because `0x90000 <= end_addr` holds inclusively, and returns early. -/
theorem isAddressInSections_boundary_counterexample :
    List.Pairwise (fun s t : Section => s.end_addr ≤ t.start_addr ∨ t.end_addr ≤ s.start_addr)
      ([⟨0, 0x90000, true, false⟩, ⟨0x90000, 0xA0000, false, true⟩] : List Section) ∧
    specInSections [⟨0, 0x90000, true, false⟩, ⟨0x90000, 0xA0000, false, true⟩]
      0x90000 8 "" = true ∧
    isAddressInSections [⟨0, 0x90000, true, false⟩, ⟨0x90000, 0xA0000, false, true⟩]
      0x90000 8 "" = false := by
  refine ⟨?_, by decide, by decide⟩
  decide

/-- C2 witness: the amended equivalence at a concrete separated section map. -/
theorem isAddressInSections_eq_spec_witness :
    sectionsSeparated "RAM" [⟨0, 0x90000, true, false⟩, ⟨0x200000, 0x248000, false, true⟩] ∧
    isAddressInSections [⟨0, 0x90000, true, false⟩, ⟨0x200000, 0x248000, false, true⟩]
        0x200000 8 "RAM"
      = specInSections [⟨0, 0x90000, true, false⟩, ⟨0x200000, 0x248000, false, true⟩]
        0x200000 8 "RAM" :=
  ⟨by unfold sectionsSeparated; decide,
    isAddressInSections_eq_spec _ 0x200000 8 "RAM" (by unfold sectionsSeparated; decide)⟩

/-- C3 (counterexample): slot index 128 lies outside `[0, N)` for the
patch-table capacity N = 128, yet the gate `args.slot < 0 or args.slot >
128` accepts it and the command reaches the hardware
(`disableRomPatch`). -/
theorem patch_slot_128_accepted :
    slotOutOfRange (some 128) = false ∧
    (0 : Int) ≤ 128 ∧ ¬((128 : Int) < 128) ∧
    cmdPatchWork [] (some 128) true none [] true true
      = (true, [PatchEffect.disableRomPatch none (some 128)]) := by
  refine ⟨rfl, by decide, by decide, rfl⟩

/-- C3 (amended): a caller-supplied patch slot index is accepted exactly
when it lies in the inclusive range `[0, 128]`; every index outside that
range is rejected before any hardware interaction. -/
theorem patch_slot_gate_range (sections : List Section) (s t : Int) (delete : Bool)
    (address : Option Nat) (data : List Nat) (answer hwOk : Bool)
    (hout : ¬(0 ≤ s ∧ s ≤ 128)) (ht : 0 ≤ t ∧ t ≤ 128) :
    slotOutOfRange (some s) = true ∧
    cmdPatchWork sections (some s) delete address data answer hwOk = (false, []) ∧
    slotOutOfRange (some t) = false := by
  have hs : slotOutOfRange (some s) = true := by
    simp only [slotOutOfRange, Bool.or_eq_true, decide_eq_true_eq]
    omega
  refine ⟨hs, ?_, ?_⟩
  · simp [cmdPatchWork, hs]
  · simp only [slotOutOfRange, Bool.or_eq_false_iff, decide_eq_false_iff_not]
    omega

/-- C3 witness: the amended slot gate at the boundary indices 129 (rejected) and 128 (accepted). -/
theorem patch_slot_gate_range_witness :
    slotOutOfRange (some 129) = true ∧
    cmdPatchWork [] (some 129) false none [] false false = (false, []) ∧
    slotOutOfRange (some 128) = false :=
  patch_slot_gate_range [] 129 128 false none [] false false (by decide) (by decide)

/-- C4 (confirmed): when the caller-supplied patch data is not exactly 4
bytes, `CmdPatch.work` installs exactly 4 bytes - the first 4 when the
data is longer, the data right-padded with zero bytes when shorter - a
warning is emitted, and the request proceeds to `patchRom` rather than
being rejected or dropped. -/
theorem patch_data_adjusted_to_four (sections : List Section) (addr : Nat)
    (data : List Nat) (slot : Option Int) (answer hwOk : Bool)
    (hlen : data.length ≠ 4) (hne : data ≠ [])
    (hslot : slotOutOfRange slot = false)
    (haddr : isAddressInSections sections addr 4 "ROM" = true ∨ answer = true) :
    cmdPatchWork sections slot false (some addr) data answer hwOk
      = (hwOk, [PatchEffect.patchRom addr (adjustPatchData data).1 slot]) ∧
    (adjustPatchData data).1.length = 4 ∧
    (adjustPatchData data).2 = true ∧
    (adjustPatchData data).1 =
      (if 4 < data.length then data.take 4
        else data ++ List.replicate (4 - data.length) 0) := by
  have h4 : (adjustPatchData data).1.length = 4 := by
    unfold adjustPatchData
    split_ifs with h1 h2 <;> simp <;> omega
  have hempty : data.isEmpty = false := by
    cases data with
    | nil => exact absurd rfl hne
    | cons a l => rfl
  refine ⟨?_, h4, ?_, ?_⟩
  · unfold cmdPatchWork
    rw [hslot]
    simp only [Bool.false_eq_true, if_false, hempty]
    have hgate : (!isAddressInSections sections addr (adjustPatchData data).1.length "ROM"
        && !answer) = false := by
      rw [h4]
      rcases haddr with h | h <;> simp [h]
    simp [hgate]
  · unfold adjustPatchData
    split_ifs with h1 h2 <;> first | rfl | omega
  · unfold adjustPatchData
    split_ifs with h1 h2 <;> first | rfl | omega

/-- C4 witness: a 2-byte patch payload is zero-padded to 4 bytes, warned about, and installed. -/
theorem patch_data_adjusted_to_four_witness :
    cmdPatchWork [⟨0, 0x90000, true, false⟩] none false (some 0x100) [1, 2] false true
      = (true, [PatchEffect.patchRom 0x100 (adjustPatchData [1, 2]).1 none]) ∧
    (adjustPatchData [1, 2]).1.length = 4 ∧
    (adjustPatchData [1, 2]).2 = true ∧
    (adjustPatchData [1, 2]).1 =
      (if 4 < ([1, 2] : List Nat).length then ([1, 2] : List Nat).take 4
        else [1, 2] ++ List.replicate (4 - ([1, 2] : List Nat).length) 0) :=
  patch_data_adjusted_to_four [⟨0, 0x90000, true, false⟩] 0x100 [1, 2] none false true
    (by decide) (by decide) (by decide) (Or.inl (by decide))

/-- C6 (confirmed): `getMonitorController` maintains exactly one
controller instance per capture kind - asking again for the same kind
returns the same instance and leaves the registry unchanged - and a
second start of either kind without an intervening stop fails with the
"already running" warning and returns false, leaving the controller state
(running flag, callback registration, viewer process) exactly as it
was. -/
theorem monitor_singleton_double_start :
    (∀ (name : String) (r : MonitorRegistry),
      getMonitorController name (getMonitorController name r).2
        = getMonitorController name r) ∧
    (∀ st : MonState,
      startHciMonitor (startHciMonitor st).2.2
        = (false, ["HCI Monitor already running!"], (startHciMonitor st).2.2) ∧
      startLmpMonitor (startLmpMonitor st).2.2
        = (false, ["LMP Monitor already running!"], (startLmpMonitor st).2.2)) := by
  constructor
  · intro name r
    unfold getMonitorController
    by_cases h1 : name == "hci"
    · simp only [h1, if_true]
      rcases hh : r.hciInstance with _ | inst <;> simp [hh]
    · simp only [h1, Bool.false_eq_true, if_false]
      by_cases h2 : name == "lmp"
      · simp only [h2, if_true]
        rcases hh : r.lmpInstance with _ | inst <;> simp [hh]
      · simp only [h2, Bool.false_eq_true, if_false]
  · intro st
    constructor <;>
      (cases h : st.running <;> cases hw : st.wiresharkProcess <;>
        simp [startHciMonitor, startLmpMonitor, spawnWireshark, h, hw])

/-- C7 (counterexample): the claim says a viewer exit with any status
triggers the automatic stop; but with the monitor running and the viewer
exited with status 1, the liveness check reschedules itself and the
monitor stays running, because the code compares `poll() == 0`. -/
theorem pollTimer_nonzero_exit_keeps_running :
    (pollTimerStep stopHciMonitor ⟨true, some (some 1), true, 0xC9⟩).1.running = true ∧
    (pollTimerStep stopHciMonitor ⟨true, some (some 1), true, 0xC9⟩).2 = true := by
  exact ⟨rfl, rfl⟩

/-- C7 (amended): when the liveness check runs while the monitor is
running with a viewer process, an exit status of 0 triggers the automatic
stop (running flag and callback registration cleared, the process handle
dropped, no new timer scheduled); any other poll result - viewer still
running or exited with a nonzero status - reschedules the check and
leaves the state unchanged. -/
theorem pollTimer_exit_zero_stops (st st2 : MonState) (q : Option Int)
    (h1 : st.running = true) (h2 : st.wiresharkProcess = some (some 0))
    (h3 : st2.running = true) (h4 : st2.wiresharkProcess = some q)
    (h5 : q ≠ some 0) :
    pollTimerStep stopHciMonitor st
      = ({ st with running := false, callbackRegistered := false, wiresharkProcess := none }, false) ∧
    pollTimerStep stopLmpMonitor st
      = ({ st with running := false, callbackRegistered := false, wiresharkProcess := none }, false) ∧
    pollTimerStep stopHciMonitor st2 = (st2, true) ∧
    pollTimerStep stopLmpMonitor st2 = (st2, true) := by
  unfold pollTimerStep stopHciMonitor stopLmpMonitor
  rw [h2, h4]
  simp [h1, h3, h5]

/-- C7 witness: the amended liveness theorem at concrete states for exit status 0 and exit status 7. -/
theorem pollTimer_exit_zero_stops_witness :
    pollTimerStep stopHciMonitor ⟨true, some (some 0), true, 0xC9⟩
      = (⟨false, none, false, 0xC9⟩, false) ∧
    pollTimerStep stopLmpMonitor ⟨true, some (some 0), true, 0xC9⟩
      = (⟨false, none, false, 0xC9⟩, false) ∧
    pollTimerStep stopHciMonitor ⟨true, some (some 7), true, 0x01⟩
      = (⟨true, some (some 7), true, 0x01⟩, true) ∧
    pollTimerStep stopLmpMonitor ⟨true, some (some 7), true, 0x01⟩
      = (⟨true, some (some 7), true, 0x01⟩, true) :=
  pollTimer_exit_zero_stops ⟨true, some (some 0), true, 0xC9⟩
    ⟨true, some (some 7), true, 0x01⟩ (some 7) rfl rfl rfl rfl (by decide)

/-- Shape of one pcap record: length, payload position, and both decoded length fields. -/
theorem pcapHeader_facts (a b : Nat) (pkt : List Nat) (h : pkt.length < 4294967296) :
    (p32 a ++ p32 b ++ p32 pkt.length ++ p32 pkt.length ++ pkt).length
      = 16 + pkt.length ∧
    (p32 a ++ p32 b ++ p32 pkt.length ++ p32 pkt.length ++ pkt).drop 16 = pkt ∧
    u32 (((p32 a ++ p32 b ++ p32 pkt.length ++ p32 pkt.length ++ pkt).drop 8).take 4)
      = pkt.length ∧
    u32 (((p32 a ++ p32 b ++ p32 pkt.length ++ p32 pkt.length ++ pkt).drop 12).take 4)
      = pkt.length := by
  refine ⟨?_, ?_, ?_, ?_⟩
  · simp [p32]
    omega
  · simp [p32]
  · simp [p32, u32, List.getD]
    omega
  · simp [p32, u32, List.getD]
    omega

/-- C8 (confirmed): for every captured HCI or LMP event, the pcap record
written to the viewer is the 16-byte record header followed by the
kind-specific framed payload, and both header length fields (captured
length, bytes 8-11, and original length, bytes 12-15) decode to exactly
the framed payload's byte length (assumed below 2^32, where `struct.pack`
would otherwise fail instead of writing a record). -/
theorem capture_record_length_fields (flags : Nat) (raw : List Nat)
    (tsSec tsUsec : Nat) (lmp : List Nat) (own : Bool) (src dest : List Nat)
    (ts2Sec ts2Usec : Nat)
    (hh : (hciPacket flags raw).length < 4294967296)
    (hl : (lmpPacket lmp own src dest).length < 4294967296) :
    CaptureRecordClaim flags raw tsSec tsUsec lmp own src dest ts2Sec ts2Usec := by
  obtain ⟨A1, A2, A3, A4⟩ := pcapHeader_facts tsSec tsUsec (hciPacket flags raw) hh
  obtain ⟨B1, B2, B3, B4⟩ := pcapHeader_facts ts2Sec ts2Usec (lmpPacket lmp own src dest) hl
  exact ⟨A1, A2, A3, A4, B1, B2, B3, B4⟩

/-- C8 witness: the record shape at concrete HCI and LMP events. -/
theorem capture_record_length_fields_witness :
    CaptureRecordClaim 3 [9, 9, 9] 1 2 [5, 6] true
      [1, 1, 1, 1, 1, 1] [2, 2, 2, 2, 2, 2] 7 8 :=
  capture_record_length_fields 3 [9, 9, 9] 1 2 [5, 6] true
    [1, 1, 1, 1, 1, 1] [2, 2, 2, 2, 2, 2] 7 8 (by decide) (by decide)

/-- C9 (confirmed): the big-step call relation of
`CmdTelescope.telescope` is total: for every section map, memory content,
starting dump and initial depth the recursion reaches the result computed
by the depth-structural function `telescope`. The recursive constructor
consumes exactly one unit of the depth counter per followed pointer, and
the recursion stops on a zero value, an exhausted depth counter, or a
pointer outside every section. -/
theorem telescope_terminates (sections : List Section) (mem : Nat → Nat)
    (data : List Nat) (depth : Nat) :
    TelescopeStep sections mem data depth (telescope sections mem data depth) := by
  induction depth generalizing data with
  | zero =>
    by_cases hv : u32 data = 0
    · have ht : telescope sections mem data 0 = ([u32 data], []) := by
        simp [telescope, hv]
      rw [ht]
      exact TelescopeStep.zeroVal data 0 hv
    · have ht : telescope sections mem data 0 = ([u32 data], takePrintable data) := by
        simp [telescope, hv]
      rw [ht]
      exact TelescopeStep.leaf data 0 hv (Or.inl rfl)
  | succ d ih =>
    by_cases hv : u32 data = 0
    · have ht : telescope sections mem data (d + 1) = ([u32 data], []) := by
        simp [telescope, hv]
      rw [ht]
      exact TelescopeStep.zeroVal data (d + 1) hv
    · by_cases hin : isAddressInSections sections (u32 data) 0x20 "" = true
      · have ht : telescope sections mem data (d + 1)
            = (u32 data :: (telescope sections mem (readMem mem (u32 data) 0x20) d).1,
                (telescope sections mem (readMem mem (u32 data) 0x20) d).2) := by
          simp [telescope, hv, hin]
        rw [ht]
        exact TelescopeStep.link data d _ hv hin (ih _)
      · have hin' : isAddressInSections sections (u32 data) 0x20 "" = false := by
          simpa using hin
        have ht : telescope sections mem data (d + 1)
            = ([u32 data], takePrintable data) := by
          simp [telescope, hv, hin']
        rw [ht]
        exact TelescopeStep.leaf data (d + 1) hv (Or.inr hin')

/-- C10 (confirmed): `findCmd` returns `some c` exactly when `c` is the
unique entry of the command list whose keywords contain the keyword, and
returns `none` exactly when no entry matches or more than one entry does -
an ambiguous keyword is never resolved to an arbitrarily chosen
command. -/
theorem findCmd_unique_match (commandList : List CmdClass) (keyword : String) :
    (∀ c : CmdClass, findCmd commandList keyword = some c ↔
      commandList.filter (fun cmd => cmd.keywords.contains keyword) = [c]) ∧
    (findCmd commandList keyword = none ↔
      (commandList.filter (fun cmd => cmd.keywords.contains keyword) = [] ∨
        1 < (commandList.filter (fun cmd => cmd.keywords.contains keyword)).length)) := by
  unfold findCmd
  cases hf : commandList.filter (fun cmd => cmd.keywords.contains keyword) with
  | nil => simp
  | cons c rest =>
    cases rest with
    | nil => simp
    | cons c2 rest2 =>
      constructor
      · intro c3
        simp
      · simp

/-- C10 witness: the characterization applied to a concrete command list with a unique match. -/
theorem findCmd_unique_match_witness :
    findCmd [⟨["help"]⟩, ⟨["exit", "q"]⟩] "q" = some ⟨["exit", "q"]⟩ :=
  ((findCmd_unique_match [⟨["help"]⟩, ⟨["exit", "q"]⟩] "q").1 ⟨["exit", "q"]⟩).mpr
    (by decide)

/-- C5 witness: the build-and-refresh theorem at a concrete device memory,
section map and cached image. -/
theorem getMemoryImage_build_and_refresh_witness :
    MemoryImageClaim (fun p => (p + 10) % 256)
      [⟨0, 4, true, false⟩, ⟨4, 8, false, true⟩]
      [1, 1, 1, 1, 1, 1, 1, 1] none true :=
  getMemoryImage_build_and_refresh (fun p => (p + 10) % 256)
    [⟨0, 4, true, false⟩, ⟨4, 8, false, true⟩] [1, 1, 1, 1, 1, 1, 1, 1] none true
    (by decide) (by decide) (by decide)
